import Mathlib

/-!
Verification of the calendar-assistant core: the conversation session manager
and extraction orchestrator (package `openai`) and the ICS encoder (package
`calendar`).  Timestamps are modelled as seconds since the Unix epoch (`Int`,
UTC), mirroring the absolute instant carried by `time.Time`; the civil-calendar
conversions below model the proleptic Gregorian calendar used by the `time`
package.  Integer division written `/` and `%` on `Int` is euclidean division
(which agrees with floor division for the positive constant divisors used
here); truncated division `Int.tdiv` models division in the source language.
-/

/-- Civil date (year, month, day) from an era index and a day-of-era in
`[0, 146096]`, proleptic Gregorian calendar (eras are 400-year blocks
anchored at 0000-03-01). -/
def civilParts (era doe : Int) : Int × Int × Int :=
  let yoe : Int := (doe - doe / 1460 + doe / 36524 - doe / 146096) / 365
  let y : Int := yoe + era * 400
  let doy : Int := doe - (365 * yoe + yoe / 4 - yoe / 100)
  let mp : Int := (5 * doy + 2) / 153
  let d : Int := doy - (153 * mp + 2) / 5 + 1
  let m : Int := if mp < 10 then mp + 3 else mp - 9
  (if m ≤ 2 then y + 1 else y, m, d)

/-- Civil date (year, month, day) of the day that lies `z0` days after
1970-01-01, proleptic Gregorian calendar; models the calendar computation
of the `time` package (`Year`/`Month`/`Day` of a UTC instant). -/
def civilFromDays (z0 : Int) : Int × Int × Int :=
  let z := z0 + 719468
  civilParts (z / 146097) (z - z / 146097 * 146097)

/-- Days from 1970-01-01 to the given civil date (proleptic Gregorian);
models the inverse calendar computation of the `time` package
(`time.Date` at midnight UTC, divided by 86400). -/
def daysFromCivil (y0 m d : Int) : Int :=
  let y : Int := if m ≤ 2 then y0 - 1 else y0
  let era : Int := y / 400
  let yoe : Int := y - era * 400
  let doy : Int := (153 * (if m > 2 then m - 3 else m + 9) + 2) / 5 + d - 1
  let doe : Int := yoe * 365 + yoe / 4 - yoe / 100 + doy
  era * 146097 + doe - 719468

set_option maxHeartbeats 8000000 in
/-- Within one 400-year era, the day-of-year offset computed by
`civilParts` lies in `[0, 365]`. -/
theorem doy_bounds (doe : Int) (h1 : 0 ≤ doe) (h2 : doe ≤ 146096) :
    0 ≤ doe - (365 * ((doe - doe / 1460 + doe / 36524 - doe / 146096) / 365)
        + ((doe - doe / 1460 + doe / 36524 - doe / 146096) / 365) / 4
        - ((doe - doe / 1460 + doe / 36524 - doe / 146096) / 365) / 100) ∧
    doe - (365 * ((doe - doe / 1460 + doe / 36524 - doe / 146096) / 365)
        + ((doe - doe / 1460 + doe / 36524 - doe / 146096) / 365) / 4
        - ((doe - doe / 1460 + doe / 36524 - doe / 146096) / 365) / 100) ≤ 365 := by
  set yoe := (doe - doe / 1460 + doe / 36524 - doe / 146096) / 365 with hyoe
  have hb : 0 ≤ yoe ∧ yoe ≤ 399 := by omega
  obtain ⟨hb1, hb2⟩ := hb
  interval_cases yoe <;> omega

set_option maxHeartbeats 2000000 in
/-- `daysFromCivil` inverts `civilParts` on a day-of-era in range. -/
theorem daysFromCivil_civilParts (era doe : Int) (h1 : 0 ≤ doe) (h2 : doe ≤ 146096) :
    daysFromCivil (civilParts era doe).1 (civilParts era doe).2.1 (civilParts era doe).2.2
      = 146097 * era + doe - 719468 := by
  have hdoy := doy_bounds doe h1 h2
  unfold civilParts daysFromCivil
  simp only
  set yoe := (doe - doe / 1460 + doe / 36524 - doe / 146096) / 365 with hyoe
  set doy := doe - (365 * yoe + yoe / 4 - yoe / 100) with hdoy2
  set mp := (5 * doy + 2) / 153 with hmp2
  have hyoeb : 0 ≤ yoe ∧ yoe ≤ 399 := by rw [hyoe]; omega
  have hmpb : 0 ≤ mp ∧ mp ≤ 11 := by rw [hmp2]; omega
  by_cases hmp : mp < 10
  · simp only [if_pos hmp]
    have h3 : ¬ (mp + 3 ≤ 2) := by omega
    have h4 : mp + 3 > 2 := by omega
    simp only [if_neg h3, if_pos h4]
    have h5 : mp + 3 - 3 = mp := by ring
    rw [h5]
    rw [show (yoe + era * 400) / 400 = era from by omega]
    rw [show yoe + era * 400 - era * 400 = yoe from by ring]
    omega
  · simp only [if_neg hmp]
    have h3 : mp - 9 ≤ 2 := by omega
    have h4 : ¬ (mp - 9 > 2) := by omega
    simp only [if_pos h3, if_neg h4]
    have h5 : mp - 9 + 9 = mp := by ring
    have h6 : yoe + era * 400 + 1 - 1 = yoe + era * 400 := by ring
    rw [h5, h6]
    rw [show (yoe + era * 400) / 400 = era from by omega]
    rw [show yoe + era * 400 - era * 400 = yoe from by ring]
    omega

/-- `daysFromCivil` inverts `civilFromDays`: the civil date of day `z`
converts back to `z`. -/
theorem daysFromCivil_civilFromDays (z : Int) :
    daysFromCivil (civilFromDays z).1 (civilFromDays z).2.1 (civilFromDays z).2.2 = z := by
  unfold civilFromDays
  simp only
  rw [daysFromCivil_civilParts _ _ (by omega) (by omega)]
  omega

set_option maxHeartbeats 1000000 in
/-- Field bounds for `civilParts`: month in `[1, 12]`, day in `[1, 31]`,
and a year bound sufficient for four-digit formatting on days up to
9999-12-31 (day index 2932896 from the epoch). -/
theorem civilParts_bounds (era doe : Int) (h1 : 0 ≤ doe) (h2 : doe ≤ 146096) :
    1 ≤ (civilParts era doe).2.1 ∧ (civilParts era doe).2.1 ≤ 12 ∧
    1 ≤ (civilParts era doe).2.2 ∧ (civilParts era doe).2.2 ≤ 31 ∧
    400 * era ≤ (civilParts era doe).1 ∧ (civilParts era doe).1 ≤ 400 * era + 400 := by
  have hdoy := doy_bounds doe h1 h2
  unfold civilParts
  simp only
  set yoe := (doe - doe / 1460 + doe / 36524 - doe / 146096) / 365 with hyoe
  set doy := doe - (365 * yoe + yoe / 4 - yoe / 100) with hdoy2
  set mp := (5 * doy + 2) / 153 with hmp2
  have hyoeb : 0 ≤ yoe ∧ yoe ≤ 399 := by rw [hyoe]; omega
  have hmpb : 0 ≤ mp ∧ mp ≤ 11 := by rw [hmp2]; omega
  have hd : 1 ≤ doy - (153 * mp + 2) / 5 + 1 ∧ doy - (153 * mp + 2) / 5 + 1 ≤ 31 := by
    obtain ⟨hm1, hm2⟩ := hmpb
    interval_cases mp <;> omega
  by_cases hmp : mp < 10 <;>
    simp only [if_pos, if_neg, hmp, if_true, if_false] <;>
    split <;> omega

/-- The decimal digit character for `n % 10` (code point 48 plus the
digit), as printed by the decimal format verbs. -/
def digitChar (n : Nat) : Char :=
  Char.ofNat (48 + n % 10)

/-- Two-digit zero-padded decimal rendering (format verb `%02d` for values
below 100, as in the layout fields `01 02 15 04 05`). -/
def pad2 (n : Nat) : List Char :=
  [digitChar (n / 10), digitChar (n % 10)]

/-- Four-digit zero-padded decimal rendering (layout field `2006`). -/
def pad4 (n : Nat) : List Char :=
  pad2 (n / 100) ++ pad2 (n % 100)

/-- Character list of a UTC instant rendered with layout
`20060102T150405Z` (the encoder's timestamp format). -/
def fmtTimestampChars (t : Int) : List Char :=
  let day := t / 86400
  let sod := (t % 86400).toNat
  let c := civilFromDays day
  pad4 c.1.toNat ++ (pad2 c.2.1.toNat ++ (pad2 c.2.2.toNat ++
    ('T' :: (pad2 (sod / 3600) ++ (pad2 (sod % 3600 / 60) ++ (pad2 (sod % 60) ++ ['Z']))))))

/-- A UTC instant rendered with layout `20060102T150405Z`. -/
def fmtTimestamp (t : Int) : String :=
  ⟨fmtTimestampChars t⟩

/-- Character list of a UTC instant's calendar date rendered with layout
`20060102` (the encoder's date-only format). -/
def fmtDateChars (t : Int) : List Char :=
  let c := civilFromDays (t / 86400)
  pad4 c.1.toNat ++ (pad2 c.2.1.toNat ++ pad2 c.2.2.toNat)

/-- A UTC instant's calendar date rendered with layout `20060102`. -/
def fmtDate (t : Int) : String :=
  ⟨fmtDateChars t⟩

/-- Reads one decimal digit character. -/
def readDigit (c : Char) : Option Nat :=
  if 48 ≤ c.toNat ∧ c.toNat ≤ 57 then some (c.toNat - 48) else none

/-- Reads two decimal digit characters into a number below 100. -/
def read2 : List Char → Option (Nat × List Char)
  | a :: b :: rest =>
    match readDigit a, readDigit b with
    | some x, some y => some (10 * x + y, rest)
    | _, _ => none
  | _ => none

/-- Reads four decimal digit characters into a number below 10000. -/
def read4 (l : List Char) : Option (Nat × List Char) :=
  match read2 l with
  | none => none
  | some (x, rest) =>
    match read2 rest with
    | none => none
    | some (y, rest2) => some (100 * x + y, rest2)

/-- Parses a complete `20060102T150405Z` timestamp back to seconds since
the epoch (the re-parsing direction of the round-trip property). -/
def parseTSChars (l : List Char) : Option Int :=
  match read4 l with
  | none => none
  | some (y, l1) =>
    match read2 l1 with
    | none => none
    | some (mo, l2) =>
      match read2 l2 with
      | none => none
      | some (d, l3) =>
        match l3 with
        | 'T' :: l4 =>
          match read2 l4 with
          | none => none
          | some (h, l5) =>
            match read2 l5 with
            | none => none
            | some (mi, l6) =>
              match read2 l6 with
              | none => none
              | some (s, l7) =>
                match l7 with
                | ['Z'] => some (daysFromCivil y mo d * 86400 + (h * 3600 + mi * 60 + s : Nat))
                | _ => none
        | _ => none

/-- Parses a complete `20060102` date back to the day index from the epoch. -/
def parseDateChars (l : List Char) : Option Int :=
  match read4 l with
  | none => none
  | some (y, l1) =>
    match read2 l1 with
    | none => none
    | some (mo, l2) =>
      match read2 l2 with
      | none => none
      | some (d, l3) =>
        match l3 with
        | [] => some (daysFromCivil y mo d)
        | _ => none

/-- Parses a `20060102T150405Z` timestamp string. -/
def parseTimestamp (s : String) : Option Int :=
  parseTSChars s.data

/-- Whether a UTC instant falls exactly at midnight, modelling
`t.Hour() == 0 && t.Minute() == 0 && t.Second() == 0`. -/
def isMidnight (t : Int) : Bool :=
  t % 86400 == 0

/-- The instant `time.Date(t.Year(), t.Month(), t.Day()+1, 0, 0, 0, 0, loc)`
for a UTC instant `t`: midnight of the calendar day following `t`'s date. -/
def startOfNextDay (t : Int) : Int :=
  daysFromCivil (civilFromDays (t / 86400)).1 (civilFromDays (t / 86400)).2.1
    ((civilFromDays (t / 86400)).2.2 + 1) * 86400

/-- Incrementing the day argument of `daysFromCivil` adds one day. -/
theorem daysFromCivil_day_succ (y m d : Int) :
    daysFromCivil y m (d + 1) = daysFromCivil y m d + 1 := by
  by_cases h : m ≤ 2 <;> by_cases h2 : m > 2 <;>
    simp only [daysFromCivil, if_pos, if_neg, h, h2, if_true, if_false] <;> omega

/-- `startOfNextDay` is the start of the following UTC day. -/
theorem startOfNextDay_eq (t : Int) : startOfNextDay t = (t / 86400 + 1) * 86400 := by
  unfold startOfNextDay
  rw [daysFromCivil_day_succ, daysFromCivil_civilFromDays]

/-- `readDigit` inverts `digitChar` on digits. -/
theorem readDigit_digitChar (k : Nat) (h : k < 10) :
    readDigit (digitChar k) = some k := by
  interval_cases k <;> rfl

/-- `read2` inverts `pad2` on values below 100. -/
theorem read2_pad2 (n : Nat) (h : n < 100) (rest : List Char) :
    read2 (pad2 n ++ rest) = some (n, rest) := by
  have h1 : n / 10 < 10 := by omega
  have h2 : n % 10 < 10 := by omega
  simp [pad2, read2, readDigit_digitChar _ h1, readDigit_digitChar _ h2]
  omega

/-- `read4` inverts `pad4` on values below 10000. -/
theorem read4_pad4 (n : Nat) (h : n < 10000) (rest : List Char) :
    read4 (pad4 n ++ rest) = some (n, rest) := by
  have h1 : n / 100 < 100 := by omega
  have h2 : n % 100 < 100 := by omega
  simp [pad4, read4, read2_pad2 _ h1, read2_pad2 _ h2]
  omega

set_option maxHeartbeats 2000000 in
/-- Year bounds of `civilFromDays` on day indexes between the epoch and
9999-12-31. -/
theorem civilFromDays_year_bounds (z : Int) (h1 : 0 ≤ z) (h2 : z ≤ 2932896) :
    0 ≤ (civilFromDays z).1 ∧ (civilFromDays z).1 < 10000 := by
  unfold civilFromDays civilParts
  simp only
  set era := (z + 719468) / 146097 with hera
  set doe := z + 719468 - era * 146097 with hdoe
  have hdoeb : 0 ≤ doe ∧ doe ≤ 146096 := by rw [hdoe, hera]; omega
  have herab : 4 ≤ era ∧ era ≤ 24 := by rw [hera]; omega
  have hdoy := doy_bounds doe hdoeb.1 hdoeb.2
  set yoe := (doe - doe / 1460 + doe / 36524 - doe / 146096) / 365 with hyoe
  set doy := doe - (365 * yoe + yoe / 4 - yoe / 100) with hdoy2
  set mp := (5 * doy + 2) / 153 with hmp2
  have hyoeb : 0 ≤ yoe ∧ yoe ≤ 399 := by rw [hyoe]; omega
  have hmpb : 0 ≤ mp ∧ mp ≤ 11 := by rw [hmp2]; omega
  split <;> split <;> omega

/-- Month and day bounds of `civilFromDays` on every day index. -/
theorem civilFromDays_md_bounds (z : Int) :
    1 ≤ (civilFromDays z).2.1 ∧ (civilFromDays z).2.1 ≤ 12 ∧
    1 ≤ (civilFromDays z).2.2 ∧ (civilFromDays z).2.2 ≤ 31 := by
  unfold civilFromDays
  simp only
  have h := civilParts_bounds ((z + 719468) / 146097)
    (z + 719468 - (z + 719468) / 146097 * 146097) (by omega) (by omega)
  exact ⟨h.1, h.2.1, h.2.2.1, h.2.2.2.1⟩

/-- Round trip for the timestamp layout: parsing the rendering of an
in-range instant recovers the instant exactly, at seconds precision. -/
theorem parseTimestamp_fmtTimestamp (t : Int) (h1 : 0 ≤ t) (h2 : t < 253402300800) :
    parseTimestamp (fmtTimestamp t) = some t := by
  have hday1 : (0 : Int) ≤ t / 86400 := by omega
  have hday2 : t / 86400 ≤ 2932896 := by omega
  have hyb := civilFromDays_year_bounds (t / 86400) hday1 hday2
  have hmd := civilFromDays_md_bounds (t / 86400)
  have hY : (civilFromDays (t / 86400)).1.toNat < 10000 := by omega
  have hM : (civilFromDays (t / 86400)).2.1.toNat < 100 := by omega
  have hD : (civilFromDays (t / 86400)).2.2.toNat < 100 := by omega
  have hsod : (t % 86400).toNat < 86400 := by omega
  have hH : (t % 86400).toNat / 3600 < 100 := by omega
  have hMi : (t % 86400).toNat % 3600 / 60 < 100 := by omega
  have hS : (t % 86400).toNat % 60 < 100 := by omega
  unfold parseTimestamp fmtTimestamp fmtTimestampChars
  simp only [parseTSChars, read4_pad4 _ hY, read2_pad2 _ hM, read2_pad2 _ hD,
    read2_pad2 _ hH, read2_pad2 _ hMi, read2_pad2 _ hS]
  rw [Int.toNat_of_nonneg (by omega), Int.toNat_of_nonneg (by omega),
    Int.toNat_of_nonneg (by omega)]
  rw [daysFromCivil_civilFromDays]
  simp only [Option.some.injEq]
  omega

/-- Round trip for the date layout: parsing the rendering of an in-range
instant recovers its day index. -/
theorem parseDateChars_fmtDateChars (t : Int) (h1 : 0 ≤ t) (h2 : t < 253402300800) :
    parseDateChars (fmtDateChars t) = some (t / 86400) := by
  have hday1 : (0 : Int) ≤ t / 86400 := by omega
  have hday2 : t / 86400 ≤ 2932896 := by omega
  have hyb := civilFromDays_year_bounds (t / 86400) hday1 hday2
  have hmd := civilFromDays_md_bounds (t / 86400)
  have hY : (civilFromDays (t / 86400)).1.toNat < 10000 := by omega
  have hM : (civilFromDays (t / 86400)).2.1.toNat < 100 := by omega
  have hD : (civilFromDays (t / 86400)).2.2.toNat < 100 := by omega
  unfold fmtDateChars
  simp only [parseDateChars, read4_pad4 _ hY, read2_pad2 _ hM]
  rw [show (pad2 (civilFromDays (t / 86400)).2.2.toNat : List Char)
      = pad2 (civilFromDays (t / 86400)).2.2.toNat ++ [] from by simp]
  rw [read2_pad2 _ hD]
  simp only [Option.some.injEq]
  rw [Int.toNat_of_nonneg (by omega), Int.toNat_of_nonneg (by omega),
    Int.toNat_of_nonneg (by omega)]
  exact daysFromCivil_civilFromDays (t / 86400)

/-- One left-to-right scan replacing every non-overlapping occurrence of a
non-empty pattern, with a fuel argument bounding the number of scan steps;
models `strings.Replace(s, pat, rep, -1)` when the fuel is at least the
length of the subject. -/
def strReplaceCore (pat rep : List Char) : Nat → List Char → List Char
  | 0, s => s
  | _ + 1, [] => []
  | fuel + 1, c :: rest =>
    if pat.isPrefixOf (c :: rest) then
      rep ++ strReplaceCore pat rep fuel (rest.drop (pat.length - 1))
    else
      c :: strReplaceCore pat rep fuel rest

/-- Models `strings.Replace(s, pat, rep, -1)` for the non-empty patterns
used by the encoder's all-day rewrite. -/
def replaceAll (s pat rep : String) : String :=
  ⟨strReplaceCore pat.data rep.data s.data.length s.data⟩

/-- A list is a boolean prefix of itself. -/
theorem isPrefixOf_self (l : List Char) : l.isPrefixOf l = true := by
  induction l with
  | nil => rfl
  | cons a as ih => simp [List.isPrefixOf, ih]

/-- Replacement leaves the empty subject unchanged. -/
theorem strReplaceCore_nil (pat rep : List Char) (fuel : Nat) :
    strReplaceCore pat rep fuel [] = [] := by
  cases fuel <;> rfl

/-- Replacing a non-empty string by a pattern equal to the whole string
yields exactly the replacement. -/
theorem replaceAll_self (s rep : String) (h : s.data ≠ []) :
    replaceAll s s rep = rep := by
  unfold replaceAll
  obtain ⟨l⟩ := s
  obtain ⟨r⟩ := rep
  simp only at h ⊢
  cases l with
  | nil => exact absurd rfl h
  | cons p ps =>
    simp only [List.length_cons]
    rw [strReplaceCore]
    rw [if_pos (isPrefixOf_self (p :: ps))]
    simp [List.drop_length, strReplaceCore_nil]

/-- Whether a pattern occurs as a contiguous substring. -/
def occursIn (pat : List Char) : List Char → Bool
  | [] => pat.isEmpty
  | c :: rest => pat.isPrefixOf (c :: rest) || occursIn pat rest

/-- Replacement is the identity when the pattern does not occur. -/
theorem strReplaceCore_of_not_occurs (pat rep : List Char) :
    ∀ (fuel : Nat) (s : List Char), occursIn pat s = false →
      strReplaceCore pat rep fuel s = s := by
  intro fuel
  induction fuel with
  | zero => intro s _; rfl
  | succ f ih =>
    intro s hs
    cases s with
    | nil => rfl
    | cons c rest =>
      simp only [occursIn, Bool.or_eq_false_iff] at hs
      rw [strReplaceCore, if_neg (by simp [hs.1])]
      rw [ih rest hs.2]

/-- Every character of a boolean prefix appears in the longer list. -/
theorem mem_of_isPrefixOf {pat s : List Char} {c : Char} (hc : c ∈ pat)
    (h : pat.isPrefixOf s = true) : c ∈ s := by
  induction pat generalizing s with
  | nil => cases hc
  | cons p ps ih =>
    cases s with
    | nil => cases h
    | cons a as =>
      simp only [List.isPrefixOf, Bool.and_eq_true, beq_iff_eq] at h
      obtain ⟨hpa, hrest⟩ := h
      rcases List.mem_cons.mp hc with hx | hx
      · exact List.mem_cons.mpr (Or.inl (hx.trans hpa))
      · exact List.mem_cons.mpr (Or.inr (ih hx hrest))

/-- Every character of an occurring pattern appears in the subject. -/
theorem mem_of_occursIn {pat s : List Char} {c : Char} (hc : c ∈ pat)
    (ho : occursIn pat s = true) : c ∈ s := by
  induction s with
  | nil =>
    simp only [occursIn, List.isEmpty_iff] at ho
    subst ho; cases hc
  | cons a rest ih =>
    simp only [occursIn, Bool.or_eq_true] at ho
    rcases ho with ho | ho
    · exact mem_of_isPrefixOf hc ho
    · exact List.mem_cons.mpr (Or.inr (ih ho))

/-- Replacement is the identity whenever some character of the pattern is
absent from the subject. -/
theorem replaceAll_of_char_not_mem (s pat rep : String) (c : Char)
    (hc : c ∈ pat.data) (hs : c ∉ s.data) : replaceAll s pat rep = s := by
  unfold replaceAll
  have ho : occursIn pat.data s.data = false := by
    cases hov : occursIn pat.data s.data
    · rfl
    · exact absurd (mem_of_occursIn hc hov) hs
  rw [strReplaceCore_of_not_occurs pat.data rep.data _ _ ho]

/-- A boolean prefix of a longer pattern is a boolean prefix of anything
the longer pattern prefixes. -/
theorem isPrefixOf_append_of_isPrefixOf {p1 p2 s : List Char}
    (h : (p1 ++ p2).isPrefixOf s = true) : p1.isPrefixOf s = true := by
  induction p1 generalizing s with
  | nil => cases s <;> rfl
  | cons a as ih =>
    cases s with
    | nil => cases h
    | cons b bs =>
      simp only [List.cons_append, List.isPrefixOf, Bool.and_eq_true] at h ⊢
      exact ⟨h.1, ih h.2⟩

/-- If an extended pattern occurs, so does its prefix. -/
theorem occursIn_of_occursIn_append {p1 p2 s : List Char}
    (h : occursIn (p1 ++ p2) s = true) : occursIn p1 s = true := by
  induction s with
  | nil =>
    simp only [occursIn, List.isEmpty_iff, List.append_eq_nil] at h ⊢
    simp [h.1]
  | cons a rest ih =>
    simp only [occursIn, Bool.or_eq_true] at h ⊢
    rcases h with h | h
    · exact Or.inl (isPrefixOf_append_of_isPrefixOf h)
    · exact Or.inr (ih h)

/-- Replacement is the identity whenever a prefix of the pattern does not
occur in the subject. -/
theorem replaceAll_of_prefix_not_occurs (s pat rep : String) (p1 p2 : List Char)
    (hp : pat.data = p1 ++ p2) (h : occursIn p1 s.data = false) :
    replaceAll s pat rep = s := by
  unfold replaceAll
  have ho : occursIn pat.data s.data = false := by
    cases hov : occursIn pat.data s.data
    · rfl
    · rw [hp] at hov
      rw [occursIn_of_occursIn_append hov] at h
      cases h
  rw [strReplaceCore_of_not_occurs pat.data rep.data _ _ ho]

/-- The code point of a rendered digit lies between 48 and 57. -/
theorem toNat_digitChar (k : Nat) :
    48 ≤ (digitChar k).toNat ∧ (digitChar k).toNat ≤ 57 := by
  unfold digitChar
  have h : k % 10 < 10 := Nat.mod_lt _ (by norm_num)
  set r := k % 10 with hr
  interval_cases r <;> decide

/-- Characters outside the digit code-point range, other than `T` and
`Z`, never appear in a rendered timestamp. -/
theorem not_mem_fmtTimestampChars (t : Int) (c : Char)
    (h1 : c.toNat < 48 ∨ 57 < c.toNat) (h2 : c ≠ 'T') (h3 : c ≠ 'Z') :
    c ∉ fmtTimestampChars t := by
  intro hmem
  have hd : ∀ k : Nat, ¬ (c = digitChar k) := by
    intro k hck
    have hrange := toNat_digitChar k
    rw [← hck] at hrange
    omega
  simp [fmtTimestampChars, pad4, pad2, hd, h2, h3] at hmem

/-- Characters outside the digit code-point range never appear in a
rendered date. -/
theorem not_mem_fmtDateChars (t : Int) (c : Char)
    (h1 : c.toNat < 48 ∨ 57 < c.toNat) : c ∉ fmtDateChars t := by
  intro hmem
  have hd : ∀ k : Nat, ¬ (c = digitChar k) := by
    intro k hck
    have hrange := toNat_digitChar k
    rw [← hck] at hrange
    omega
  simp [fmtDateChars, pad4, pad2, hd] at hmem


/-- Strips an expected prefix from a character list, returning the
remainder on success. -/
def stripPrefixChars : List Char → List Char → Option (List Char)
  | [], s => some s
  | _ :: _, [] => none
  | p :: ps, c :: cs => if p = c then stripPrefixChars ps cs else none


/-- A calendar event as produced by the extraction orchestrator
(`openai.Event`); times are absolute UTC instants in seconds. -/
structure Event where
  title : String
  description : String
  location : String
  startTime : Int
  endTime : Int
deriving DecidableEq

/-- First index of a character, `-1` when absent
(`bytes.IndexByte`). -/
def indexOfChar : List Char → Char → Int
  | [], _ => -1
  | a :: rest, c =>
    if a = c then 0
    else
      let r := indexOfChar rest c
      if r < 0 then -1 else r + 1

/-- Last index of a character, `-1` when absent
(`bytes.LastIndexByte`). -/
def lastIndexOfChar : List Char → Char → Int
  | [], _ => -1
  | a :: rest, c =>
    let r := lastIndexOfChar rest c
    if r ≥ 0 then r + 1 else if a = c then 0 else -1

/-- The defensive JSON extraction of `pollForCompletion`: slice from the
first opening brace to the last closing brace inclusive when the latter
comes strictly after the former, otherwise leave the text unchanged. -/
def extractJSON (s : String) : String :=
  let cs := s.data
  let startIdx := indexOfChar cs (Char.ofNat 123)
  let endIdx := lastIndexOfChar cs (Char.ofNat 125)
  if startIdx ≥ 0 ∧ endIdx > startIdx then
    ⟨(cs.drop startIdx.toNat).take (endIdx.toNat + 1 - startIdx.toNat)⟩
  else s

/-- The timestamp repair applied by `pollForCompletion` after a successful
JSON parse, lines 404-457 of the orchestrator: empty or unparseable
start falls back to the current instant; empty or unparseable end falls
back to start plus one hour, overridden to midnight of the next day when
the start lies exactly at midnight.  The parser for the
timestamp-with-timezone format is abstracted as a parameter. -/
def repairTimes (parse : String → Option Int) (now : Int)
    (startStr endStr : String) : Int × Int :=
  let startTime : Int :=
    if startStr = "" then now
    else
      match parse startStr with
      | none => now
      | some t => t
  let endTime : Int :=
    if endStr = "" then
      if isMidnight startTime then startOfNextDay startTime else startTime + 3600
    else
      match parse endStr with
      | none =>
        if isMidnight startTime then startOfNextDay startTime else startTime + 3600
      | some t => t
  (startTime, endTime)

/-- Restricted model of `time.Parse(time.RFC3339, s)` covering the
`YYYY-MM-DDTHH:MM:SSZ` form used by the concrete test vectors. -/
def parseRFC3339UTC (s : String) : Option Int :=
  match read4 s.data with
  | some (y, '-' :: r1) =>
    match read2 r1 with
    | some (mo, '-' :: r2) =>
      match read2 r2 with
      | some (d, 'T' :: r3) =>
        match read2 r3 with
        | some (h, ':' :: r4) =>
          match read2 r4 with
          | some (mi, ':' :: r5) =>
            match read2 r5 with
            | some (sec, ['Z']) =>
              some (daysFromCivil y mo d * 86400 + (h * 3600 + mi * 60 + sec : Nat))
            | _ => none
          | _ => none
        | _ => none
      | _ => none
    | _ => none
  | _ => none

/-- Status of a remote run, as in the `openai-go` enumeration. -/
inductive RunStatus where
  | queued
  | inProgress
  | requiresAction
  | cancelling
  | cancelled
  | failed
  | completed
  | incomplete
  | expired
deriving DecidableEq

/-- Wire label of a run status. -/
def RunStatus.label : RunStatus → String
  | .queued => "queued"
  | .inProgress => "in_progress"
  | .requiresAction => "requires_action"
  | .cancelling => "cancelling"
  | .cancelled => "cancelled"
  | .failed => "failed"
  | .completed => "completed"
  | .incomplete => "incomplete"
  | .expired => "expired"

/-- The polling state machine of `pollForCompletion` over the successive
statuses returned by the run-retrieval calls: `completed` proceeds to the
message-extraction stage (abstracted as `completedResult`); `failed`,
`cancelled` and `expired` abort with an error naming the status;
`requires_action` aborts as unsupported; every other status sleeps and
polls again.  `none` models a loop that never reaches a decision within
the observed status sequence. -/
def pollForCompletion (statuses : List RunStatus)
    (completedResult : Except String Event) : Option (Except String Event) :=
  match statuses with
  | [] => none
  | st :: rest =>
    match st with
    | .completed => some completedResult
    | .failed => some (.error ("run failed with status: " ++ RunStatus.label .failed))
    | .cancelled => some (.error ("run failed with status: " ++ RunStatus.label .cancelled))
    | .expired => some (.error ("run failed with status: " ++ RunStatus.label .expired))
    | .requiresAction => some (.error "run requires action, not implemented")
    | _ => pollForCompletion rest completedResult

/-- The remote thread service seen by the session manager: the outcome of
the n-th thread-creation call. -/
structure RemoteEnv where
  fresh : Nat → Except String String

/-- State touched by the session manager: the client's `threadCache`
(userID to threadID), the set of threads existing at the remote service,
and a count of creation calls. -/
structure SessionWorld where
  threadCache : String → Option String
  remoteThreads : List String
  createCalls : Nat

/-- `getOrCreateThread`: return the cached thread when the remote
existence probe succeeds; otherwise create a new thread remotely, cache
it and return it.  Creation failure is surfaced; probe failure silently
falls through to creation. -/
def getOrCreateThread (env : RemoteEnv) (w : SessionWorld) (userID : String) :
    Except String (String × SessionWorld) :=
  let create : Except String (String × SessionWorld) :=
    match env.fresh w.createCalls with
    | .error e => .error ("failed to create thread: " ++ e)
    | .ok tid =>
      .ok (tid,
        { threadCache := fun u => if u = userID then some tid else w.threadCache u
          remoteThreads := tid :: w.remoteThreads
          createCalls := w.createCalls + 1 })
  match w.threadCache userID with
  | some tid => if tid ∈ w.remoteThreads then .ok (tid, w) else create
  | none => create

/-- `ClearThreadForUser`: drop the local cache entry for the user, if any;
never fails and never touches the remote service. -/
def ClearThreadForUser (w : SessionWorld) (userID : String) :
    Except String SessionWorld :=
  match w.threadCache userID with
  | none => .ok w
  | some _ =>
    .ok { w with threadCache := fun u => if u = userID then none else w.threadCache u }

/-- The current offset, in seconds, of the resolved location: zero after
the fallback to UTC when `time.LoadLocation` fails. -/
def resolvedOffset (resolve : String → Option Int) (timezone : String) : Int :=
  match resolve timezone with
  | none => 0
  | some off => off

/-- The timezone name recorded in the document: the requested name, or
`UTC` after the fallback. -/
def resolvedName (resolve : String → Option Int) (timezone : String) : String :=
  match resolve timezone with
  | none => "UTC"
  | some _ => timezone

/-- The serialized lines of the calendar document before the all-day
rewrite: calendar envelope, an event with identifier and stamp fields
derived from the current instant, the adjusted start and end, the text
fields, and the vendor display-timezone property. -/
def icsBaseLines (now : Int) (event : Event) (adjStart adjEnd : Int)
    (tzName : String) : List String := [
  "BEGIN:VCALENDAR",
  "VERSION:2.0",
  "METHOD:REQUEST",
  "PRODID:-//Calendar Assistant//EN",
  "BEGIN:VEVENT",
  "UID:" ++ toString now,
  "CREATED:" ++ fmtTimestamp now,
  "DTSTAMP:" ++ fmtTimestamp now,
  "LAST-MODIFIED:" ++ fmtTimestamp now,
  "DTSTART:" ++ fmtTimestamp adjStart,
  "DTEND:" ++ fmtTimestamp adjEnd,
  "SUMMARY:" ++ event.title,
  "DESCRIPTION:" ++ event.description,
  "LOCATION:" ++ event.location,
  "X-DISPLAY-TIMEZONE:" ++ tzName,
  "END:VEVENT",
  "END:VCALENDAR"]

/-- The document produced by `GenerateICS` once the timezone has been
resolved to an offset and a display name: subtract the whole-hour offset
from both event times, serialize, and rewrite the start (and possibly
end) property to date-only form when the original times lie exactly at
midnight. -/
def generateICSCore (now : Int) (event : Event) (offset : Int)
    (tzName : String) : List String :=
  let offsetHours : Int := Int.tdiv offset 3600
  let adjustedStartTime : Int := event.startTime - offsetHours * 3600
  let adjustedEndTime : Int := event.endTime - offsetHours * 3600
  let baseLines : List String := icsBaseLines now event adjustedStartTime adjustedEndTime tzName
  let content1 : List String :=
    if isMidnight event.startTime then
      baseLines.map (fun line =>
        replaceAll line ("DTSTART:" ++ fmtTimestamp adjustedStartTime)
          ("DTSTART;VALUE=DATE:" ++ fmtDate adjustedStartTime))
    else baseLines
  let content2 : List String :=
    if isMidnight event.startTime && isMidnight event.endTime then
      content1.map (fun line =>
        replaceAll line ("DTEND:" ++ fmtTimestamp adjustedEndTime)
          ("DTEND;VALUE=DATE:" ++ fmtDate adjustedEndTime))
    else content1
  content2

/-- `GenerateICS`: resolve the timezone (falling back to UTC, never an
error), then emit the adjusted document.  The resolver parameter models
`time.LoadLocation` together with the current-offset query
`time.Now().In(loc).Zone()` (offset in seconds); serialization to an
in-memory buffer cannot fail, so the result is always `.ok`. -/
def GenerateICS (resolve : String → Option Int) (now : Int) (event : Event)
    (timezone : String) : Except String (List String) :=
  .ok (generateICSCore now event (resolvedOffset resolve timezone)
    (resolvedName resolve timezone))

/-- Reads the instant denoted by a start or end property line: a
`VALUE=DATE` form denotes midnight of its calendar date, a timestamp form
denotes its instant; other lines denote nothing. -/
def denoteDT (name : String) (line : String) : Option Int :=
  match stripPrefixChars (name ++ ";VALUE=DATE:").data line.data with
  | some rest => (parseDateChars rest).map (fun d => d * 86400)
  | none =>
    match stripPrefixChars (name ++ ":").data line.data with
    | some rest => parseTSChars rest
    | none => none


/-- C1: after a successful JSON parse, an empty or unparseable end time is
repaired to the start time plus one hour, except when the start lies
exactly at midnight, in which case it becomes midnight of the following
calendar day; in particular start `2025-03-10T00:00:00Z` with empty end
yields `2025-03-11T00:00:00Z`. -/
theorem spec_C1 :
    (∀ (parse : String → Option Int) (now : Int) (startStr endStr : String),
        endStr = "" ∨ parse endStr = none →
        (repairTimes parse now startStr endStr).2 =
          (if isMidnight (repairTimes parse now startStr endStr).1
           then startOfNextDay (repairTimes parse now startStr endStr).1
           else (repairTimes parse now startStr endStr).1 + 3600)) ∧
    (∀ now : Int,
        (repairTimes parseRFC3339UTC now "2025-03-10T00:00:00Z" "").1 = 1741564800 ∧
        (repairTimes parseRFC3339UTC now "2025-03-10T00:00:00Z" "").2 = 1741651200 ∧
        parseRFC3339UTC "2025-03-11T00:00:00Z" = some 1741651200) := by
  constructor
  · intro parse now ss es h
    unfold repairTimes
    simp only
    rcases h with h | h
    · subst h
      simp
    · by_cases he : es = ""
      · subst he
        simp
      · simp [he, h]
  · intro now
    have hp : parseRFC3339UTC "2025-03-10T00:00:00Z" = some 1741564800 := by decide
    have h1 : isMidnight 1741564800 = true := by decide
    have h2 : startOfNextDay 1741564800 = 1741651200 := by decide
    refine ⟨?_, ?_, by decide⟩ <;> simp [repairTimes, hp, h1, h2]

/-- C1 witness: the repair rule instantiated at the concrete test vector. -/
theorem spec_C1_witness :
    (repairTimes parseRFC3339UTC 0 "2025-03-10T00:00:00Z" "").2 =
      (if isMidnight (repairTimes parseRFC3339UTC 0 "2025-03-10T00:00:00Z" "").1
       then startOfNextDay (repairTimes parseRFC3339UTC 0 "2025-03-10T00:00:00Z" "").1
       else (repairTimes parseRFC3339UTC 0 "2025-03-10T00:00:00Z" "").1 + 3600) :=
  spec_C1.1 parseRFC3339UTC 0 "2025-03-10T00:00:00Z" "" (Or.inl rfl)

/-- C5: a run reaching `failed`, `cancelled` or `expired` after any run of
`queued`/`in_progress` polls aborts with an error naming that status;
`requires_action` aborts as unsupported; `completed` alone proceeds to
message extraction. -/
theorem spec_C5 :
    ∀ (pre rest : List RunStatus) (res : Except String Event),
      (∀ st ∈ pre, st = RunStatus.queued ∨ st = RunStatus.inProgress) →
      pollForCompletion (pre ++ RunStatus.failed :: rest) res
          = some (.error "run failed with status: failed") ∧
      pollForCompletion (pre ++ RunStatus.cancelled :: rest) res
          = some (.error "run failed with status: cancelled") ∧
      pollForCompletion (pre ++ RunStatus.expired :: rest) res
          = some (.error "run failed with status: expired") ∧
      pollForCompletion (pre ++ RunStatus.requiresAction :: rest) res
          = some (.error "run requires action, not implemented") ∧
      pollForCompletion (pre ++ RunStatus.completed :: rest) res = some res := by
  intro pre rest res hpre
  induction pre with
  | nil =>
    refine ⟨?_, ?_, ?_, ?_, ?_⟩ <;> rfl
  | cons st tail ih =>
    have hst := hpre st (List.mem_cons_self st tail)
    have htail : ∀ s ∈ tail, s = RunStatus.queued ∨ s = RunStatus.inProgress :=
      fun s hs => hpre s (List.mem_cons_of_mem st hs)
    have ih2 := ih htail
    rcases hst with h | h <;> subst h <;>
      simpa [pollForCompletion] using ih2

/-- C5 witness: a `queued` poll followed by a terminal status yields the
error naming that status. -/
theorem spec_C5_witness :
    pollForCompletion ([RunStatus.queued] ++ RunStatus.failed :: []) (.error "")
        = some (.error "run failed with status: failed") ∧
    pollForCompletion ([RunStatus.queued] ++ RunStatus.expired :: []) (.error "")
        = some (.error "run failed with status: expired") :=
  ⟨(spec_C5 [RunStatus.queued] [] (.error "") (by decide)).1,
   (spec_C5 [RunStatus.queued] [] (.error "") (by decide)).2.2.1⟩

/-- C7: a resolve for an uncached user performs exactly one remote
creation, caches the handle and returns it; a second resolve returns the
same handle unchanged (the probe succeeds on the just-created thread);
and when the probe fails on a cached handle, a fresh handle is created
and cached with no error surfaced. -/
theorem spec_C7 :
    (∀ (env : RemoteEnv) (w : SessionWorld) (userID tid : String),
        w.threadCache userID = none →
        env.fresh w.createCalls = .ok tid →
        ∃ w2, getOrCreateThread env w userID = .ok (tid, w2) ∧
          w2.threadCache userID = some tid ∧
          w2.createCalls = w.createCalls + 1 ∧
          getOrCreateThread env w2 userID = .ok (tid, w2)) ∧
    (∀ (env : RemoteEnv) (w : SessionWorld) (userID tid tid2 : String),
        w.threadCache userID = some tid →
        tid ∉ w.remoteThreads →
        env.fresh w.createCalls = .ok tid2 →
        ∃ w2, getOrCreateThread env w userID = .ok (tid2, w2) ∧
          w2.threadCache userID = some tid2 ∧
          w2.createCalls = w.createCalls + 1) := by
  constructor
  · intro env w userID tid hc hf
    refine ⟨{ threadCache := fun u => if u = userID then some tid else w.threadCache u,
              remoteThreads := tid :: w.remoteThreads,
              createCalls := w.createCalls + 1 }, ?_, ?_, ?_, ?_⟩
    · simp [getOrCreateThread, hc, hf]
    · simp
    · rfl
    · simp [getOrCreateThread]
  · intro env w userID tid tid2 hc hdead hf
    refine ⟨{ threadCache := fun u => if u = userID then some tid2 else w.threadCache u,
              remoteThreads := tid2 :: w.remoteThreads,
              createCalls := w.createCalls + 1 }, ?_, ?_, ?_⟩
    · simp [getOrCreateThread, hc, hdead, hf]
    · simp
    · rfl

/-- C7 witness: concrete fresh-user resolve. -/
theorem spec_C7_witness :
    ∃ w2, getOrCreateThread ⟨fun _ => .ok "th1"⟩
        ⟨fun _ => none, [], 0⟩ "user" = .ok ("th1", w2) ∧
      w2.threadCache "user" = some "th1" ∧
      w2.createCalls = 0 + 1 ∧
      getOrCreateThread ⟨fun _ => .ok "th1"⟩ w2 "user" = .ok ("th1", w2) :=
  spec_C7.1 ⟨fun _ => .ok "th1"⟩ ⟨fun _ => none, [], 0⟩ "user" "th1" rfl rfl

/-- C8: evicting a user's thread always succeeds, is idempotent and a
no-op when absent, removes only the local mapping (the remote thread set
and other users' mappings are untouched), and a resolve after the evict
goes through handle creation rather than reuse. -/
theorem spec_C8 :
    ∀ (w : SessionWorld) (userID : String),
      (w.threadCache userID = none → ClearThreadForUser w userID = .ok w) ∧
      ∃ w1, ClearThreadForUser w userID = .ok w1 ∧
        ClearThreadForUser w1 userID = .ok w1 ∧
        w1.threadCache userID = none ∧
        w1.remoteThreads = w.remoteThreads ∧
        (∀ u, u ≠ userID → w1.threadCache u = w.threadCache u) ∧
        (∀ (env : RemoteEnv) (tid : String),
          env.fresh w1.createCalls = .ok tid →
          ∃ w2, getOrCreateThread env w1 userID = .ok (tid, w2) ∧
            w2.createCalls = w1.createCalls + 1) := by
  intro w userID
  constructor
  · intro hc
    simp [ClearThreadForUser, hc]
  · cases hc : w.threadCache userID with
    | none =>
      refine ⟨{ threadCache := fun u => if u = userID then none else w.threadCache u,
                remoteThreads := w.remoteThreads,
                createCalls := w.createCalls }, ?_, ?_, ?_, rfl, ?_, ?_⟩
      · simp only [ClearThreadForUser, hc]
        have hfe : (fun u => if u = userID then none else w.threadCache u) = w.threadCache := by
          funext u
          by_cases hu : u = userID
          · subst hu; simp [hc]
          · simp [hu]
        simp [hfe]
      · simp [ClearThreadForUser]
      · simp
      · intro u hu
        simp [hu]
      · intro env tid hf
        refine ⟨{ threadCache := fun u => if u = userID then some tid
                    else if u = userID then none else w.threadCache u,
                  remoteThreads := tid :: w.remoteThreads,
                  createCalls := w.createCalls + 1 }, ?_, rfl⟩
        simp [getOrCreateThread, hf]
    | some tid0 =>
      refine ⟨{ threadCache := fun u => if u = userID then none else w.threadCache u,
                remoteThreads := w.remoteThreads,
                createCalls := w.createCalls }, ?_, ?_, ?_, rfl, ?_, ?_⟩
      · simp [ClearThreadForUser, hc]
      · simp [ClearThreadForUser]
      · simp
      · intro u hu
        simp [hu]
      · intro env tid hf
        refine ⟨{ threadCache := fun u => if u = userID then some tid
                    else if u = userID then none else w.threadCache u,
                  remoteThreads := tid :: w.remoteThreads,
                  createCalls := w.createCalls + 1 }, ?_, rfl⟩
        simp [getOrCreateThread, hf]

/-- C8 witness: concrete evict of a cached thread followed by a resolve. -/
theorem spec_C8_witness :
    (SessionWorld.threadCache
        ⟨fun u => if u = "user" then some "th0" else none, ["th0"], 1⟩ "user" = none →
      ClearThreadForUser
        ⟨fun u => if u = "user" then some "th0" else none, ["th0"], 1⟩ "user"
        = .ok ⟨fun u => if u = "user" then some "th0" else none, ["th0"], 1⟩) ∧
    ∃ w1, ClearThreadForUser
        ⟨fun u => if u = "user" then some "th0" else none, ["th0"], 1⟩ "user" = .ok w1 ∧
      ClearThreadForUser w1 "user" = .ok w1 ∧
      w1.threadCache "user" = none ∧
      w1.remoteThreads = ["th0"] ∧
      (∀ u, u ≠ "user" →
        w1.threadCache u =
          SessionWorld.threadCache
            ⟨fun u2 => if u2 = "user" then some "th0" else none, ["th0"], 1⟩ u) ∧
      (∀ (env : RemoteEnv) (tid : String),
        env.fresh w1.createCalls = .ok tid →
        ∃ w2, getOrCreateThread env w1 "user" = .ok (tid, w2) ∧
          w2.createCalls = w1.createCalls + 1) :=
  spec_C8 ⟨fun u => if u = "user" then some "th0" else none, ["th0"], 1⟩ "user"

/-- `indexOfChar` returns `-1` exactly on absent characters. -/
theorem indexOfChar_not_mem (l : List Char) (c : Char) (h : c ∉ l) :
    indexOfChar l c = -1 := by
  induction l with
  | nil => rfl
  | cons a rest ih =>
    simp only [List.mem_cons, not_or] at h
    simp [indexOfChar, Ne.symm h.1, h.1, ih h.2]

/-- `indexOfChar` returns the least index of a present character. -/
theorem indexOfChar_mem (l : List Char) (c : Char) (h : c ∈ l) :
    ∃ i : Nat, indexOfChar l c = i ∧ l[i]? = some c ∧ ∀ k < i, l[k]? ≠ some c := by
  induction l with
  | nil => cases h
  | cons a rest ih =>
    by_cases hac : a = c
    · exact ⟨0, by simp [indexOfChar, hac], by simp [hac],
        fun k hk => absurd hk (Nat.not_lt_zero k)⟩
    · have hc : c ∈ rest := by
        rcases List.mem_cons.mp h with h1 | h1
        · exact absurd h1.symm hac
        · exact h1
      obtain ⟨i, e1, e2, e3⟩ := ih hc
      refine ⟨i + 1, ?_, by simpa using e2, ?_⟩
      · simp only [indexOfChar, if_neg hac, e1]
        rw [if_neg (by omega)]
        push_cast
        ring
      · intro k hk
        cases k with
        | zero => simp [hac]
        | succ k2 => simpa using e3 k2 (by omega)

/-- `lastIndexOfChar` returns `-1` exactly on absent characters. -/
theorem lastIndexOfChar_not_mem (l : List Char) (c : Char) (h : c ∉ l) :
    lastIndexOfChar l c = -1 := by
  induction l with
  | nil => rfl
  | cons a rest ih =>
    simp only [List.mem_cons, not_or] at h
    simp [lastIndexOfChar, Ne.symm h.1, h.1, ih h.2]

/-- `lastIndexOfChar` returns the greatest index of a present character. -/
theorem lastIndexOfChar_mem (l : List Char) (c : Char) (h : c ∈ l) :
    ∃ j : Nat, lastIndexOfChar l c = j ∧ l[j]? = some c ∧ ∀ k, j < k → l[k]? ≠ some c := by
  induction l with
  | nil => cases h
  | cons a rest ih =>
    by_cases hc : c ∈ rest
    · obtain ⟨j, e1, e2, e3⟩ := ih hc
      refine ⟨j + 1, ?_, by simpa using e2, ?_⟩
      · simp only [lastIndexOfChar, e1]
        rw [if_pos (by omega)]
        push_cast
        ring
      · intro k hk
        cases k with
        | zero => omega
        | succ k2 => simpa using e3 k2 (by omega)
    · have hac : a = c := by
        rcases List.mem_cons.mp h with h1 | h1
        · exact h1.symm
        · exact absurd h1 hc
      refine ⟨0, ?_, by simp [hac], ?_⟩
      · simp [lastIndexOfChar, lastIndexOfChar_not_mem rest c hc, hac]
      · intro k hk
        cases k with
        | zero => omega
        | succ k2 =>
          simp only [List.getElem?_cons_succ]
          intro hmem
          exact hc (List.getElem?_mem hmem)

/-- A least index satisfying the first-occurrence property is unique. -/
theorem firstIdx_unique {l : List Char} {c : Char} {i i2 : Nat}
    (h1 : l[i]? = some c) (h2 : ∀ k < i, l[k]? ≠ some c)
    (h3 : l[i2]? = some c) (h4 : ∀ k < i2, l[k]? ≠ some c) : i = i2 := by
  rcases Nat.lt_trichotomy i i2 with h | h | h
  · exact absurd h1 (h4 i h)
  · exact h
  · exact absurd h3 (h2 i2 h)

/-- A greatest index satisfying the last-occurrence property is unique. -/
theorem lastIdx_unique {l : List Char} {c : Char} {j j2 : Nat}
    (h1 : l[j]? = some c) (h2 : ∀ k, j < k → l[k]? ≠ some c)
    (h3 : l[j2]? = some c) (h4 : ∀ k, j2 < k → l[k]? ≠ some c) : j = j2 := by
  rcases Nat.lt_trichotomy j j2 with h | h | h
  · exact absurd h3 (h2 j2 h)
  · exact h
  · exact absurd h1 (h4 j h)

/-- C4: the defensive extractor slices from the first opening brace to the
last closing brace inclusive; when no opening brace strictly precedes a
closing brace, the raw text is left unchanged. -/
theorem spec_C4 :
    (∀ (s : String) (i j : Nat),
        s.data[i]? = some (Char.ofNat 123) →
        (∀ k < i, s.data[k]? ≠ some (Char.ofNat 123)) →
        s.data[j]? = some (Char.ofNat 125) →
        (∀ k, j < k → s.data[k]? ≠ some (Char.ofNat 125)) →
        i < j →
        extractJSON s = ⟨(s.data.drop i).take (j + 1 - i)⟩) ∧
    (∀ s : String,
        (∀ i j : Nat, i < j →
          ¬(s.data[i]? = some (Char.ofNat 123) ∧ s.data[j]? = some (Char.ofNat 125))) →
        extractJSON s = s) := by
  constructor
  · intro s i j hi himin hj hjmax hij
    have hmemO : Char.ofNat 123 ∈ s.data := List.getElem?_mem hi
    have hmemC : Char.ofNat 125 ∈ s.data := List.getElem?_mem hj
    obtain ⟨i0, e1, e2, e3⟩ := indexOfChar_mem _ _ hmemO
    obtain ⟨j0, f1, f2, f3⟩ := lastIndexOfChar_mem _ _ hmemC
    have hii : i0 = i := firstIdx_unique e2 e3 hi himin
    subst hii
    have hjj : j0 = j := lastIdx_unique f2 f3 hj hjmax
    subst hjj
    unfold extractJSON
    simp only [e1, f1]
    rw [if_pos ⟨by omega, by exact_mod_cast hij⟩]
    simp

  · intro s hno
    unfold extractJSON
    simp only
    split
    · next hcond =>
      exfalso
      obtain ⟨h1, h2⟩ := hcond
      by_cases hmo : Char.ofNat 123 ∈ s.data
      · obtain ⟨i, e1, e2, e3⟩ := indexOfChar_mem _ _ hmo
        by_cases hmc : Char.ofNat 125 ∈ s.data
        · obtain ⟨j, f1, f2, f3⟩ := lastIndexOfChar_mem _ _ hmc
          rw [e1, f1] at h2
          have hij : i < j := by exact_mod_cast h2
          exact hno i j hij ⟨e2, f2⟩
        · rw [lastIndexOfChar_not_mem _ _ hmc, e1] at h2
          omega
      · rw [indexOfChar_not_mem _ _ hmo] at h1
        omega
    · rfl

/-- C4 witness: the extractor applied to a short text with surrounding
prose slices exactly the braced region. -/
theorem spec_C4_witness :
    extractJSON "a\x7bc\x7d" = "\x7bc\x7d" := by
  have h := spec_C4.1 "a\x7bc\x7d" 1 3 (by decide) (by decide) (by decide)
    (fun k hk => by
      rw [List.getElem?_eq_none (by simp; omega)]
      simp) (by omega)
  rw [h]
  decide

/-- The final `Z` of the timestamp layout. -/
theorem Z_mem_fmtTimestampChars (t : Int) : 'Z' ∈ fmtTimestampChars t := by
  simp [fmtTimestampChars]

/-- The start-property rewrite replaces its own needle entirely. -/
theorem replaceAll_dtstart_self (t : Int) (rep : String) :
    replaceAll ("DTSTART:" ++ fmtTimestamp t) ("DTSTART:" ++ fmtTimestamp t) rep = rep := by
  apply replaceAll_self
  show ("DTSTART:".data ++ fmtTimestampChars t) ≠ []
  simp

/-- The end-property rewrite replaces its own needle entirely. -/
theorem replaceAll_dtend_self (t : Int) (rep : String) :
    replaceAll ("DTEND:" ++ fmtTimestamp t) ("DTEND:" ++ fmtTimestamp t) rep = rep := by
  apply replaceAll_self
  show ("DTEND:".data ++ fmtTimestampChars t) ≠ []
  simp

/-- The start-property needle never occurs in an end-property line. -/
theorem replaceAll_dtstart_on_dtend (tE tS : Int) (rep : String) :
    replaceAll ("DTEND:" ++ fmtTimestamp tE) ("DTSTART:" ++ fmtTimestamp tS) rep
      = "DTEND:" ++ fmtTimestamp tE := by
  apply replaceAll_of_char_not_mem _ _ _ 'R'
  · show 'R' ∈ "DTSTART:".data ++ fmtTimestampChars tS
    apply List.mem_append_left
    decide
  · show 'R' ∉ "DTEND:".data ++ fmtTimestampChars tE
    intro hmem
    rcases List.mem_append.mp hmem with h | h
    · exact absurd h (by decide)
    · exact absurd h (not_mem_fmtTimestampChars tE 'R' (by decide) (by decide) (by decide))

/-- The end-property needle never occurs in a rewritten date-only
start-property line. -/
theorem replaceAll_dtend_on_dtstart_date (tS tE : Int) (rep : String) :
    replaceAll ("DTSTART;VALUE=DATE:" ++ fmtDate tS) ("DTEND:" ++ fmtTimestamp tE) rep
      = "DTSTART;VALUE=DATE:" ++ fmtDate tS := by
  apply replaceAll_of_char_not_mem _ _ _ 'N'
  · show 'N' ∈ "DTEND:".data ++ fmtTimestampChars tE
    apply List.mem_append_left
    decide
  · show 'N' ∉ "DTSTART;VALUE=DATE:".data ++ fmtDateChars tS
    intro hmem
    rcases List.mem_append.mp hmem with h | h
    · exact absurd h (by decide)
    · exact absurd h (not_mem_fmtDateChars tS 'N' (by decide))

/-- Neither property needle occurs in a line free of the letter `Z`. -/
theorem replaceAll_needle_on_plain (s : String) (p : String) (t : Int) (rep : String)
    (hz : 'Z' ∉ s.data) :
    replaceAll s (p ++ fmtTimestamp t) rep = s := by
  apply replaceAll_of_char_not_mem _ _ _ 'Z'
  · show 'Z' ∈ p.data ++ fmtTimestampChars t
    exact List.mem_append_right _ (Z_mem_fmtTimestampChars t)
  · exact hz

/-- The start-property needle never occurs in the UTC display-timezone
line. -/
theorem replaceAll_dtstart_on_xdisplay (t : Int) (rep : String) :
    replaceAll "X-DISPLAY-TIMEZONE:UTC" ("DTSTART:" ++ fmtTimestamp t) rep
      = "X-DISPLAY-TIMEZONE:UTC" := by
  apply replaceAll_of_prefix_not_occurs _ _ _ "DTSTART:".data (fmtTimestampChars t) rfl
  decide

/-- The end-property needle never occurs in the UTC display-timezone
line. -/
theorem replaceAll_dtend_on_xdisplay (t : Int) (rep : String) :
    replaceAll "X-DISPLAY-TIMEZONE:UTC" ("DTEND:" ++ fmtTimestamp t) rep
      = "X-DISPLAY-TIMEZONE:UTC" := by
  apply replaceAll_of_prefix_not_occurs _ _ _ "DTEND:".data (fmtTimestampChars t) rfl
  decide

/-- Base lines free of the letter `Z` survive into the final document. -/
theorem mem_generateICSCore_plain (now : Int) (e : Event) (off : Int) (tzN : String)
    (s : String)
    (hmem : s ∈ icsBaseLines now e (e.startTime - Int.tdiv off 3600 * 3600)
      (e.endTime - Int.tdiv off 3600 * 3600) tzN)
    (hz : 'Z' ∉ s.data) :
    s ∈ generateICSCore now e off tzN := by
  unfold generateICSCore
  simp only
  cases hs : isMidnight e.startTime <;> cases he : isMidnight e.endTime <;>
    simp only [hs, he, Bool.true_and, Bool.false_and, if_true, if_false, Bool.false_eq_true,
      if_neg, reduceIte]
  · exact hmem
  · exact hmem
  · have h1 := List.mem_map_of_mem (fun line =>
      replaceAll line ("DTSTART:" ++ fmtTimestamp (e.startTime - Int.tdiv off 3600 * 3600))
        ("DTSTART;VALUE=DATE:" ++ fmtDate (e.startTime - Int.tdiv off 3600 * 3600))) hmem
    simp only at h1
    rwa [replaceAll_needle_on_plain s _ _ _ hz] at h1
  · have h1 := List.mem_map_of_mem (fun line =>
      replaceAll line ("DTSTART:" ++ fmtTimestamp (e.startTime - Int.tdiv off 3600 * 3600))
        ("DTSTART;VALUE=DATE:" ++ fmtDate (e.startTime - Int.tdiv off 3600 * 3600))) hmem
    simp only at h1
    rw [replaceAll_needle_on_plain s _ _ _ hz] at h1
    have h2 := List.mem_map_of_mem (fun line =>
      replaceAll line ("DTEND:" ++ fmtTimestamp (e.endTime - Int.tdiv off 3600 * 3600))
        ("DTEND;VALUE=DATE:" ++ fmtDate (e.endTime - Int.tdiv off 3600 * 3600))) h1
    simp only at h2
    rwa [replaceAll_needle_on_plain s _ _ _ hz] at h2

/-- The document always opens with the calendar envelope. -/
theorem head?_generateICSCore (now : Int) (e : Event) (off : Int) (tzN : String) :
    (generateICSCore now e off tzN).head? = some "BEGIN:VCALENDAR" := by
  unfold generateICSCore icsBaseLines
  simp only
  cases hs : isMidnight e.startTime <;> cases he : isMidnight e.endTime <;>
    simp only [hs, he, Bool.true_and, Bool.false_and, if_true, if_false, Bool.false_eq_true,
      if_neg, reduceIte, List.map_cons, List.head?_cons]
  all_goals rfl


/-- C2: when the original start time lies exactly at midnight the start
property is rewritten to date-only form carrying the adjusted date, and
likewise for the end property when the original end time is midnight; in
particular the event `2025-06-01T00:00:00Z`-`2025-06-02T00:00:00Z`
encoded for timezone `UTC` serializes `DTSTART;VALUE=DATE:20250601` and
`DTEND;VALUE=DATE:20250602` and not the timestamp forms. -/
theorem spec_C2 :
    (∀ (resolve : String → Option Int) (now : Int) (e : Event) (tz : String),
        isMidnight e.startTime = true →
        ∃ doc, GenerateICS resolve now e tz = .ok doc ∧
          ("DTSTART;VALUE=DATE:" ++
            fmtDate (e.startTime - Int.tdiv (resolvedOffset resolve tz) 3600 * 3600)) ∈ doc ∧
          (isMidnight e.endTime = true →
            ("DTEND;VALUE=DATE:" ++
              fmtDate (e.endTime - Int.tdiv (resolvedOffset resolve tz) 3600 * 3600)) ∈ doc)) ∧
    (∀ resolve : String → Option Int, resolve "UTC" = some 0 →
        ∃ doc, GenerateICS resolve 0
            (Event.mk "Meeting" "" "" 1748736000 1748822400) "UTC" = .ok doc ∧
          "DTSTART;VALUE=DATE:20250601" ∈ doc ∧
          "DTEND;VALUE=DATE:20250602" ∈ doc ∧
          "DTSTART:20250601T000000Z" ∉ doc ∧
          "DTEND:20250602T000000Z" ∉ doc) := by
  constructor
  · intro resolve now e tz hs
    refine ⟨generateICSCore now e (resolvedOffset resolve tz) (resolvedName resolve tz),
      rfl, ?_, ?_⟩
    · unfold generateICSCore
      simp only [hs, Bool.true_and, if_true]
      have h1 : ("DTSTART:" ++ fmtTimestamp
          (e.startTime - Int.tdiv (resolvedOffset resolve tz) 3600 * 3600)) ∈
          icsBaseLines now e (e.startTime - Int.tdiv (resolvedOffset resolve tz) 3600 * 3600)
            (e.endTime - Int.tdiv (resolvedOffset resolve tz) 3600 * 3600)
            (resolvedName resolve tz) := by
        simp [icsBaseLines]
      have h2 := List.mem_map_of_mem (fun line =>
        replaceAll line ("DTSTART:" ++ fmtTimestamp
          (e.startTime - Int.tdiv (resolvedOffset resolve tz) 3600 * 3600))
          ("DTSTART;VALUE=DATE:" ++ fmtDate
            (e.startTime - Int.tdiv (resolvedOffset resolve tz) 3600 * 3600))) h1
      simp only at h2
      rw [replaceAll_dtstart_self] at h2
      cases he : isMidnight e.endTime
      · simp only [Bool.and_false, Bool.false_eq_true, if_neg, reduceIte]
        exact h2
      · simp only [Bool.and_true, if_true]
        have h3 := List.mem_map_of_mem (fun line =>
          replaceAll line ("DTEND:" ++ fmtTimestamp
            (e.endTime - Int.tdiv (resolvedOffset resolve tz) 3600 * 3600))
            ("DTEND;VALUE=DATE:" ++ fmtDate
              (e.endTime - Int.tdiv (resolvedOffset resolve tz) 3600 * 3600))) h2
        simp only at h3
        rwa [replaceAll_dtend_on_dtstart_date] at h3
    · intro he
      unfold generateICSCore
      simp only [hs, he, Bool.and_self, Bool.true_and, if_true]
      have h1 : ("DTEND:" ++ fmtTimestamp
          (e.endTime - Int.tdiv (resolvedOffset resolve tz) 3600 * 3600)) ∈
          icsBaseLines now e (e.startTime - Int.tdiv (resolvedOffset resolve tz) 3600 * 3600)
            (e.endTime - Int.tdiv (resolvedOffset resolve tz) 3600 * 3600)
            (resolvedName resolve tz) := by
        simp [icsBaseLines]
      have h2 := List.mem_map_of_mem (fun line =>
        replaceAll line ("DTSTART:" ++ fmtTimestamp
          (e.startTime - Int.tdiv (resolvedOffset resolve tz) 3600 * 3600))
          ("DTSTART;VALUE=DATE:" ++ fmtDate
            (e.startTime - Int.tdiv (resolvedOffset resolve tz) 3600 * 3600))) h1
      simp only at h2
      rw [replaceAll_dtstart_on_dtend] at h2
      have h3 := List.mem_map_of_mem (fun line =>
        replaceAll line ("DTEND:" ++ fmtTimestamp
          (e.endTime - Int.tdiv (resolvedOffset resolve tz) 3600 * 3600))
          ("DTEND;VALUE=DATE:" ++ fmtDate
            (e.endTime - Int.tdiv (resolvedOffset resolve tz) 3600 * 3600))) h2
      simp only at h3
      rwa [replaceAll_dtend_self] at h3
  · intro resolve h
    have ho : resolvedOffset resolve "UTC" = 0 := by simp [resolvedOffset, h]
    have hn : resolvedName resolve "UTC" = "UTC" := by simp [resolvedName, h]
    refine ⟨generateICSCore 0 (Event.mk "Meeting" "" "" 1748736000 1748822400)
      (resolvedOffset resolve "UTC") (resolvedName resolve "UTC"), rfl, ?_, ?_, ?_, ?_⟩ <;>
      rw [ho, hn] <;> decide

/-- C2 witness: the general all-day rewrite instantiated at the concrete
event and a resolver mapping `UTC` to offset zero. -/
theorem spec_C2_witness :
    ∃ doc, GenerateICS (fun z => if z = "UTC" then some 0 else none) 0
        (Event.mk "Meeting" "" "" 1748736000 1748822400) "UTC" = .ok doc ∧
      "DTSTART;VALUE=DATE:20250601" ∈ doc ∧
      "DTEND;VALUE=DATE:20250602" ∈ doc ∧
      "DTSTART:20250601T000000Z" ∉ doc ∧
      "DTEND:20250602T000000Z" ∉ doc :=
  spec_C2.2 (fun z => if z = "UTC" then some 0 else none) (by simp)


/-- C3: the encoder subtracts the resolved timezone's current whole-hour
offset from both event times before serializing, and re-parsing the
emitted `DTSTART`/`DTEND` values (when not rewritten to all-day form)
recovers exactly the offset-adjusted instants at seconds precision, for
adjusted instants within the four-digit-year domain of the timestamp
layout. -/
theorem spec_C3 :
    ∀ (resolve : String → Option Int) (now : Int) (e : Event) (tz : String) (off : Int),
      resolve tz = some off →
      0 ≤ e.startTime - Int.tdiv off 3600 * 3600 →
      e.startTime - Int.tdiv off 3600 * 3600 < 253402300800 →
      0 ≤ e.endTime - Int.tdiv off 3600 * 3600 →
      e.endTime - Int.tdiv off 3600 * 3600 < 253402300800 →
      ∃ doc, GenerateICS resolve now e tz = .ok doc ∧
        (isMidnight e.startTime = false →
          ("DTSTART:" ++ fmtTimestamp (e.startTime - Int.tdiv off 3600 * 3600)) ∈ doc ∧
          parseTimestamp (fmtTimestamp (e.startTime - Int.tdiv off 3600 * 3600))
            = some (e.startTime - Int.tdiv off 3600 * 3600)) ∧
        ((isMidnight e.startTime && isMidnight e.endTime) = false →
          ("DTEND:" ++ fmtTimestamp (e.endTime - Int.tdiv off 3600 * 3600)) ∈ doc ∧
          parseTimestamp (fmtTimestamp (e.endTime - Int.tdiv off 3600 * 3600))
            = some (e.endTime - Int.tdiv off 3600 * 3600)) := by
  intro resolve now e tz off h hs1 hs2 he1 he2
  have ho : resolvedOffset resolve tz = off := by simp [resolvedOffset, h]
  refine ⟨generateICSCore now e (resolvedOffset resolve tz) (resolvedName resolve tz),
    rfl, ?_, ?_⟩
  · intro hs
    rw [ho]
    constructor
    · unfold generateICSCore
      simp only [hs, Bool.false_and, Bool.false_eq_true, if_neg, reduceIte]
      simp [icsBaseLines]
    · exact parseTimestamp_fmtTimestamp _ hs1 hs2
  · intro hse
    rw [ho]
    refine ⟨?_, parseTimestamp_fmtTimestamp _ he1 he2⟩
    unfold generateICSCore
    simp only
    cases hs : isMidnight e.startTime
    · simp only [hs, Bool.false_and, Bool.false_eq_true, if_neg, reduceIte]
      simp [icsBaseLines]
    · rw [hs] at hse
      rw [Bool.true_and] at hse
      simp only [hs, hse, Bool.true_and, if_true, Bool.false_eq_true, if_neg, reduceIte]
      have h1 : ("DTEND:" ++ fmtTimestamp (e.endTime - Int.tdiv off 3600 * 3600)) ∈
          icsBaseLines now e (e.startTime - Int.tdiv off 3600 * 3600)
            (e.endTime - Int.tdiv off 3600 * 3600) (resolvedName resolve tz) := by
        simp [icsBaseLines]
      have h2 := List.mem_map_of_mem (fun line =>
        replaceAll line ("DTSTART:" ++ fmtTimestamp (e.startTime - Int.tdiv off 3600 * 3600))
          ("DTSTART;VALUE=DATE:" ++ fmtDate (e.startTime - Int.tdiv off 3600 * 3600))) h1
      simp only at h2
      rwa [replaceAll_dtstart_on_dtend] at h2

/-- C3 witness: a non-midnight event in a `+02:00` zone round-trips its
adjusted timestamps. -/
theorem spec_C3_witness :
    ∃ doc, GenerateICS (fun z => if z = "EET" then some 7200 else none) 0
        (Event.mk "t" "" "" 1748779200 1748782800) "EET" = .ok doc ∧
      (isMidnight (1748779200 : Int) = false →
        ("DTSTART:" ++ fmtTimestamp (1748779200 - Int.tdiv 7200 3600 * 3600)) ∈ doc ∧
        parseTimestamp (fmtTimestamp (1748779200 - Int.tdiv 7200 3600 * 3600))
          = some (1748779200 - Int.tdiv 7200 3600 * 3600)) ∧
      ((isMidnight (1748779200 : Int) && isMidnight (1748782800 : Int)) = false →
        ("DTEND:" ++ fmtTimestamp (1748782800 - Int.tdiv 7200 3600 * 3600)) ∈ doc ∧
        parseTimestamp (fmtTimestamp (1748782800 - Int.tdiv 7200 3600 * 3600))
          = some (1748782800 - Int.tdiv 7200 3600 * 3600)) :=
  spec_C3 (fun z => if z = "EET" then some 7200 else none) 0
    (Event.mk "t" "" "" 1748779200 1748782800) "EET" 7200
    (by simp) (by decide) (by decide) (by decide) (by decide)

/-- C6: an unresolvable timezone degrades gracefully: the encoder falls
back to offset zero, records `UTC` in the vendor display-timezone
property, and still emits a well-formed document with no error. -/
theorem spec_C6 :
    ∀ (resolve : String → Option Int) (now : Int) (e : Event) (tz : String),
      resolve tz = none →
      ∃ doc, GenerateICS resolve now e tz = .ok doc ∧
        "X-DISPLAY-TIMEZONE:UTC" ∈ doc ∧
        doc.head? = some "BEGIN:VCALENDAR" ∧
        "END:VCALENDAR" ∈ doc ∧ "BEGIN:VEVENT" ∈ doc ∧ "END:VEVENT" ∈ doc ∧
        (isMidnight e.startTime = false →
          ("DTSTART:" ++ fmtTimestamp e.startTime) ∈ doc ∧
          ("DTEND:" ++ fmtTimestamp e.endTime) ∈ doc) := by
  intro resolve now e tz h
  have ho : resolvedOffset resolve tz = 0 := by simp [resolvedOffset, h]
  have hn : resolvedName resolve tz = "UTC" := by simp [resolvedName, h]
  have hq : ∀ t : Int, t - Int.tdiv 0 3600 * 3600 = t := by
    intro t
    simp [Int.zero_tdiv]
  have hx : ("X-DISPLAY-TIMEZONE:" ++ "UTC" : String) = "X-DISPLAY-TIMEZONE:UTC" := by decide
  refine ⟨generateICSCore now e (resolvedOffset resolve tz) (resolvedName resolve tz),
    rfl, ?_, ?_, ?_, ?_, ?_, ?_⟩
  · rw [ho, hn]
    unfold generateICSCore
    simp only
    cases hs : isMidnight e.startTime <;> cases he : isMidnight e.endTime <;>
      simp only [hs, he, Bool.true_and, Bool.false_and, Bool.and_false, if_true,
        Bool.false_eq_true, if_neg, reduceIte]
    · simp [icsBaseLines, hx]
    · simp [icsBaseLines, hx]
    · have h1 : ("X-DISPLAY-TIMEZONE:UTC" : String) ∈
          icsBaseLines now e (e.startTime - Int.tdiv 0 3600 * 3600)
            (e.endTime - Int.tdiv 0 3600 * 3600) "UTC" := by
        simp [icsBaseLines, ← hx]
      have h2 := List.mem_map_of_mem (fun line =>
        replaceAll line ("DTSTART:" ++ fmtTimestamp (e.startTime - Int.tdiv 0 3600 * 3600))
          ("DTSTART;VALUE=DATE:" ++ fmtDate (e.startTime - Int.tdiv 0 3600 * 3600))) h1
      simp only at h2
      rwa [replaceAll_dtstart_on_xdisplay] at h2
    · have h1 : ("X-DISPLAY-TIMEZONE:UTC" : String) ∈
          icsBaseLines now e (e.startTime - Int.tdiv 0 3600 * 3600)
            (e.endTime - Int.tdiv 0 3600 * 3600) "UTC" := by
        simp [icsBaseLines, ← hx]
      have h2 := List.mem_map_of_mem (fun line =>
        replaceAll line ("DTSTART:" ++ fmtTimestamp (e.startTime - Int.tdiv 0 3600 * 3600))
          ("DTSTART;VALUE=DATE:" ++ fmtDate (e.startTime - Int.tdiv 0 3600 * 3600))) h1
      simp only at h2
      rw [replaceAll_dtstart_on_xdisplay] at h2
      have h3 := List.mem_map_of_mem (fun line =>
        replaceAll line ("DTEND:" ++ fmtTimestamp (e.endTime - Int.tdiv 0 3600 * 3600))
          ("DTEND;VALUE=DATE:" ++ fmtDate (e.endTime - Int.tdiv 0 3600 * 3600))) h2
      simp only at h3
      rwa [replaceAll_dtend_on_xdisplay] at h3
  · exact head?_generateICSCore now e _ _
  · exact mem_generateICSCore_plain now e _ _ _ (by simp [icsBaseLines]) (by decide)
  · exact mem_generateICSCore_plain now e _ _ _ (by simp [icsBaseLines]) (by decide)
  · exact mem_generateICSCore_plain now e _ _ _ (by simp [icsBaseLines]) (by decide)
  · intro hs
    rw [ho, hn]
    constructor
    · unfold generateICSCore
      simp only [hs, Bool.false_and, Bool.false_eq_true, if_neg, reduceIte]
      rw [show e.startTime = e.startTime - Int.tdiv 0 3600 * 3600 from (hq e.startTime).symm]
      simp [icsBaseLines]
    · unfold generateICSCore
      simp only [hs, Bool.false_and, Bool.false_eq_true, if_neg, reduceIte]
      rw [show e.endTime = e.endTime - Int.tdiv 0 3600 * 3600 from (hq e.endTime).symm]
      simp [icsBaseLines]

/-- C6 witness: encoding with an unknown timezone name. -/
theorem spec_C6_witness :
    ∃ doc, GenerateICS (fun _ => none) 0
        (Event.mk "t" "" "" 1748779200 1748782800) "Not/AZone" = .ok doc ∧
      "X-DISPLAY-TIMEZONE:UTC" ∈ doc ∧
      doc.head? = some "BEGIN:VCALENDAR" ∧
      "END:VCALENDAR" ∈ doc ∧ "BEGIN:VEVENT" ∈ doc ∧ "END:VEVENT" ∈ doc ∧
      (isMidnight (1748779200 : Int) = false →
        ("DTSTART:" ++ fmtTimestamp 1748779200) ∈ doc ∧
        ("DTEND:" ++ fmtTimestamp 1748782800) ∈ doc) :=
  spec_C6 (fun _ => none) 0 (Event.mk "t" "" "" 1748779200 1748782800) "Not/AZone" rfl


/-- When the original start is midnight the rewritten date-only start
property is a line of the final document. -/
theorem mem_core_dtstart_date (now : Int) (e : Event) (off : Int) (tzN : String)
    (hs : isMidnight e.startTime = true) :
    ("DTSTART;VALUE=DATE:" ++ fmtDate (e.startTime - Int.tdiv off 3600 * 3600))
      ∈ generateICSCore now e off tzN := by
  unfold generateICSCore
  simp only [hs, Bool.true_and, if_true]
  have h1 : ("DTSTART:" ++ fmtTimestamp (e.startTime - Int.tdiv off 3600 * 3600)) ∈
      icsBaseLines now e (e.startTime - Int.tdiv off 3600 * 3600)
        (e.endTime - Int.tdiv off 3600 * 3600) tzN := by
    simp [icsBaseLines]
  have h2 := List.mem_map_of_mem (fun line =>
    replaceAll line ("DTSTART:" ++ fmtTimestamp (e.startTime - Int.tdiv off 3600 * 3600))
      ("DTSTART;VALUE=DATE:" ++ fmtDate (e.startTime - Int.tdiv off 3600 * 3600))) h1
  simp only at h2
  rw [replaceAll_dtstart_self] at h2
  cases he : isMidnight e.endTime
  · simp only [Bool.and_false, Bool.false_eq_true, if_neg, reduceIte]
    exact h2
  · simp only [Bool.and_true, if_true]
    have h3 := List.mem_map_of_mem (fun line =>
      replaceAll line ("DTEND:" ++ fmtTimestamp (e.endTime - Int.tdiv off 3600 * 3600))
        ("DTEND;VALUE=DATE:" ++ fmtDate (e.endTime - Int.tdiv off 3600 * 3600))) h2
    simp only at h3
    rwa [replaceAll_dtend_on_dtstart_date] at h3

/-- When both original times are midnight the rewritten date-only end
property is a line of the final document. -/
theorem mem_core_dtend_date (now : Int) (e : Event) (off : Int) (tzN : String)
    (hs : isMidnight e.startTime = true) (he : isMidnight e.endTime = true) :
    ("DTEND;VALUE=DATE:" ++ fmtDate (e.endTime - Int.tdiv off 3600 * 3600))
      ∈ generateICSCore now e off tzN := by
  unfold generateICSCore
  simp only [hs, he, Bool.and_self, Bool.true_and, if_true]
  have h1 : ("DTEND:" ++ fmtTimestamp (e.endTime - Int.tdiv off 3600 * 3600)) ∈
      icsBaseLines now e (e.startTime - Int.tdiv off 3600 * 3600)
        (e.endTime - Int.tdiv off 3600 * 3600) tzN := by
    simp [icsBaseLines]
  have h2 := List.mem_map_of_mem (fun line =>
    replaceAll line ("DTSTART:" ++ fmtTimestamp (e.startTime - Int.tdiv off 3600 * 3600))
      ("DTSTART;VALUE=DATE:" ++ fmtDate (e.startTime - Int.tdiv off 3600 * 3600))) h1
  simp only at h2
  rw [replaceAll_dtstart_on_dtend] at h2
  have h3 := List.mem_map_of_mem (fun line =>
    replaceAll line ("DTEND:" ++ fmtTimestamp (e.endTime - Int.tdiv off 3600 * 3600))
      ("DTEND;VALUE=DATE:" ++ fmtDate (e.endTime - Int.tdiv off 3600 * 3600))) h2
  simp only at h3
  rwa [replaceAll_dtend_self] at h3

/-- When the original start is not midnight both property lines keep
their timestamp form in the final document. -/
theorem mem_core_ts_of_not_midnight (now : Int) (e : Event) (off : Int) (tzN : String)
    (hs : isMidnight e.startTime = false) :
    ("DTSTART:" ++ fmtTimestamp (e.startTime - Int.tdiv off 3600 * 3600))
      ∈ generateICSCore now e off tzN ∧
    ("DTEND:" ++ fmtTimestamp (e.endTime - Int.tdiv off 3600 * 3600))
      ∈ generateICSCore now e off tzN := by
  unfold generateICSCore
  simp only [hs, Bool.false_and, Bool.false_eq_true, if_neg, reduceIte]
  constructor <;> simp [icsBaseLines]

/-- The denotation of a timestamp start-property line. -/
theorem denoteDT_dtstart_ts (t : Int) (h1 : 0 ≤ t) (h2 : t < 253402300800) :
    denoteDT "DTSTART" ("DTSTART:" ++ fmtTimestamp t) = some t :=
  parseTimestamp_fmtTimestamp t h1 h2

/-- The denotation of a timestamp end-property line. -/
theorem denoteDT_dtend_ts (t : Int) (h1 : 0 ≤ t) (h2 : t < 253402300800) :
    denoteDT "DTEND" ("DTEND:" ++ fmtTimestamp t) = some t :=
  parseTimestamp_fmtTimestamp t h1 h2

/-- The rendered date depends only on the calendar day. -/
theorem fmtDate_congr (t1 t2 : Int) (hd : t1 / 86400 = t2 / 86400) :
    fmtDate t1 = fmtDate t2 := by
  unfold fmtDate fmtDateChars
  rw [hd]

/-- Rendered dates of distinct in-range days differ. -/
theorem fmtDate_ne_of_day_ne (t1 t2 : Int) (h1a : 0 ≤ t1) (h1b : t1 < 253402300800)
    (h2a : 0 ≤ t2) (h2b : t2 < 253402300800) (hne : t1 / 86400 ≠ t2 / 86400) :
    fmtDate t1 ≠ fmtDate t2 := by
  intro heq
  have hdata : fmtDateChars t1 = fmtDateChars t2 := congrArg String.data heq
  have hp : parseDateChars (fmtDateChars t1) = parseDateChars (fmtDateChars t2) := by
    rw [hdata]
  rw [parseDateChars_fmtDateChars t1 h1a h1b, parseDateChars_fmtDateChars t2 h2a h2b] at hp
  exact hne (Option.some.injEq _ _ ▸ hp)

/-- C9 counterexample: for the event `2025-06-01T00:00:00Z` with end one
second earlier and a `+01:00` zone, the emitted date-only `DTSTART`
denotes midnight of 2025-05-31 while the `DTEND` timestamp denotes
22:59:59 of the same day, a strictly later instant: the claim's ordering
fails once the all-day rewrite fires. -/
theorem spec_C9_counterexample :
    ∃ doc, GenerateICS (fun z => if z = "X" then some 3600 else none) 0
        (Event.mk "t" "d" "l" 1748736000 1748735999) "X" = .ok doc ∧
      (1748735999 : Int) < 1748736000 ∧
      "DTSTART;VALUE=DATE:20250531" ∈ doc ∧
      "DTEND:20250531T225959Z" ∈ doc ∧
      denoteDT "DTSTART" "DTSTART;VALUE=DATE:20250531" = some 1748649600 ∧
      denoteDT "DTEND" "DTEND:20250531T225959Z" = some 1748732399 ∧
      (1748649600 : Int) < 1748732399 := by
  refine ⟨_, rfl, by decide, ?_, ?_, by decide, by decide, by decide⟩ <;> decide

/-- C9 (amended): the encoder validates nothing: an event with end before
start encodes without error and without repair, and — provided the
original start is not exactly midnight, so the all-day rewrite does not
fire — the emitted document's `DTEND` denotes an instant strictly
earlier than its `DTSTART`. -/
theorem spec_C9 :
    ∀ (resolve : String → Option Int) (now : Int) (e : Event) (tz : String),
      e.endTime < e.startTime →
      ∃ doc, GenerateICS resolve now e tz = .ok doc ∧
        (isMidnight e.startTime = false →
          0 ≤ e.endTime - Int.tdiv (resolvedOffset resolve tz) 3600 * 3600 →
          e.startTime - Int.tdiv (resolvedOffset resolve tz) 3600 * 3600 < 253402300800 →
          ("DTSTART:" ++ fmtTimestamp
            (e.startTime - Int.tdiv (resolvedOffset resolve tz) 3600 * 3600)) ∈ doc ∧
          ("DTEND:" ++ fmtTimestamp
            (e.endTime - Int.tdiv (resolvedOffset resolve tz) 3600 * 3600)) ∈ doc ∧
          denoteDT "DTSTART" ("DTSTART:" ++ fmtTimestamp
            (e.startTime - Int.tdiv (resolvedOffset resolve tz) 3600 * 3600))
            = some (e.startTime - Int.tdiv (resolvedOffset resolve tz) 3600 * 3600) ∧
          denoteDT "DTEND" ("DTEND:" ++ fmtTimestamp
            (e.endTime - Int.tdiv (resolvedOffset resolve tz) 3600 * 3600))
            = some (e.endTime - Int.tdiv (resolvedOffset resolve tz) 3600 * 3600) ∧
          e.endTime - Int.tdiv (resolvedOffset resolve tz) 3600 * 3600
            < e.startTime - Int.tdiv (resolvedOffset resolve tz) 3600 * 3600) := by
  intro resolve now e tz hlt
  refine ⟨generateICSCore now e (resolvedOffset resolve tz) (resolvedName resolve tz),
    rfl, ?_⟩
  intro hs hr1 hr2
  obtain ⟨m1, m2⟩ := mem_core_ts_of_not_midnight now e (resolvedOffset resolve tz)
    (resolvedName resolve tz) hs
  refine ⟨m1, m2, ?_, ?_, by omega⟩
  · exact denoteDT_dtstart_ts _ (by omega) hr2
  · exact denoteDT_dtend_ts _ hr1 (by omega)

/-- C9 witness: the amended ordering at a concrete non-midnight event. -/
theorem spec_C9_witness :
    ∃ doc, GenerateICS (fun z => if z = "X" then some 3600 else none) 0
        (Event.mk "t" "d" "l" 1748739600 1748736060) "X" = .ok doc ∧
      (isMidnight (1748739600 : Int) = false →
        0 ≤ (1748736060 : Int) - Int.tdiv
          (resolvedOffset (fun z => if z = "X" then some 3600 else none) "X") 3600 * 3600 →
        (1748739600 : Int) - Int.tdiv
          (resolvedOffset (fun z => if z = "X" then some 3600 else none) "X") 3600 * 3600
          < 253402300800 →
        ("DTSTART:" ++ fmtTimestamp ((1748739600 : Int) - Int.tdiv
          (resolvedOffset (fun z => if z = "X" then some 3600 else none) "X") 3600 * 3600)) ∈ doc ∧
        ("DTEND:" ++ fmtTimestamp ((1748736060 : Int) - Int.tdiv
          (resolvedOffset (fun z => if z = "X" then some 3600 else none) "X") 3600 * 3600)) ∈ doc ∧
        denoteDT "DTSTART" ("DTSTART:" ++ fmtTimestamp ((1748739600 : Int) - Int.tdiv
          (resolvedOffset (fun z => if z = "X" then some 3600 else none) "X") 3600 * 3600))
          = some ((1748739600 : Int) - Int.tdiv
            (resolvedOffset (fun z => if z = "X" then some 3600 else none) "X") 3600 * 3600) ∧
        denoteDT "DTEND" ("DTEND:" ++ fmtTimestamp ((1748736060 : Int) - Int.tdiv
          (resolvedOffset (fun z => if z = "X" then some 3600 else none) "X") 3600 * 3600))
          = some ((1748736060 : Int) - Int.tdiv
            (resolvedOffset (fun z => if z = "X" then some 3600 else none) "X") 3600 * 3600) ∧
        (1748736060 : Int) - Int.tdiv
          (resolvedOffset (fun z => if z = "X" then some 3600 else none) "X") 3600 * 3600
          < (1748739600 : Int) - Int.tdiv
            (resolvedOffset (fun z => if z = "X" then some 3600 else none) "X") 3600 * 3600) :=
  spec_C9 (fun z => if z = "X" then some 3600 else none) 0
    (Event.mk "t" "d" "l" 1748739600 1748736060) "X" (by decide)

/-- C10: for a midnight start and a positive whole-hour offset below a
day, the emitted date-only start property carries the calendar date of
the offset-adjusted instant — the day before the original start's date,
and a different rendered date than the original's; likewise the end
property when the original end is midnight. -/
theorem spec_C10 :
    ∀ (resolve : String → Option Int) (now : Int) (e : Event) (tz : String) (h : Int),
      resolve tz = some (3600 * h) →
      0 < h → h < 24 →
      isMidnight e.startTime = true →
      0 ≤ e.startTime - 86400 →
      e.startTime < 253402300800 →
      ∃ doc, GenerateICS resolve now e tz = .ok doc ∧
        ("DTSTART;VALUE=DATE:" ++ fmtDate (e.startTime - 86400)) ∈ doc ∧
        fmtDate (e.startTime - 86400) ≠ fmtDate e.startTime ∧
        (isMidnight e.endTime = true → 0 ≤ e.endTime - 86400 →
          ("DTEND;VALUE=DATE:" ++ fmtDate (e.endTime - 86400)) ∈ doc) := by
  intro resolve now e tz h hres hpos hlt hs hr1 hr2
  have ho : resolvedOffset resolve tz = 3600 * h := by simp [resolvedOffset, hres]
  have htdiv : Int.tdiv (3600 * h) 3600 = h := by
    rw [Int.mul_tdiv_cancel_left _ (by norm_num)]
  have hmid : e.startTime % 86400 = 0 := by
    have := hs
    unfold isMidnight at this
    simpa using this
  refine ⟨generateICSCore now e (resolvedOffset resolve tz) (resolvedName resolve tz),
    rfl, ?_, ?_, ?_⟩
  · rw [ho]
    have hmem := mem_core_dtstart_date now e (3600 * h) (resolvedName resolve tz) hs
    rw [htdiv] at hmem
    rwa [fmtDate_congr (e.startTime - h * 3600) (e.startTime - 86400) (by omega)] at hmem
  · apply fmtDate_ne_of_day_ne _ _ (by omega) (by omega) (by omega) hr2
    omega
  · intro he her1
    have hmidE : e.endTime % 86400 = 0 := by
      have := he
      unfold isMidnight at this
      simpa using this
    rw [ho]
    have hmem := mem_core_dtend_date now e (3600 * h) (resolvedName resolve tz) hs he
    rw [htdiv] at hmem
    rwa [fmtDate_congr (e.endTime - h * 3600) (e.endTime - 86400) (by omega)] at hmem

/-- C10 witness: midnight-to-midnight event at offset `+01:00`. -/
theorem spec_C10_witness :
    ∃ doc, GenerateICS (fun z => if z = "X" then some (3600 * 1) else none) 0
        (Event.mk "t" "" "" 1748736000 1748822400) "X" = .ok doc ∧
      ("DTSTART;VALUE=DATE:" ++ fmtDate (1748736000 - 86400)) ∈ doc ∧
      fmtDate (1748736000 - 86400) ≠ fmtDate 1748736000 ∧
      (isMidnight (1748822400 : Int) = true → 0 ≤ (1748822400 : Int) - 86400 →
        ("DTEND;VALUE=DATE:" ++ fmtDate (1748822400 - 86400)) ∈ doc) :=
  spec_C10 (fun z => if z = "X" then some (3600 * 1) else none) 0
    (Event.mk "t" "" "" 1748736000 1748822400) "X" 1
    (by simp) (by decide) (by decide) (by decide) (by decide) (by decide)
